import Mathlib

/-!
Shallow embedding of the Zetro-Translations EPUB downloader, covering
`src/utils/helpers.py` (`fetch_soup`, `parse_range_selection`) and
`src/utils/epub_builder.py` (`EpubBuilder._process_chapter_images`,
`EpubBuilder.build`), together with theorems settling the frozen claims.

Python string primitives (`str.lower`, `str.strip`, `str.split`, `int(...)`,
`re.match` against the two digit patterns) are modelled as executable functions
over `String` / `List Char`, restricted to the ASCII inputs the program deals
with.
-/

namespace Zetro

/-! ### Python string primitives -/

/-- Python `str.lower()` (ASCII). -/
def pyLower (s : String) : String :=
  String.mk (s.data.map Char.toLower)

/-- The characters Python `str.strip()` removes. -/
def isPySpace (c : Char) : Bool :=
  c = ' ' || c = '\t' || c = '\n' || c = '\r' || c = '\x0b' || c = '\x0c'

/-- Python `str.strip()`: drop leading and trailing whitespace. -/
def pyStrip (s : String) : String :=
  String.mk (((s.data.dropWhile isPySpace).reverse.dropWhile isPySpace).reverse)

/-- Python `int(s)` on a string of decimal digits (given as a char list). -/
def natOfDigits (l : List Char) : Nat :=
  l.foldl (fun acc c => acc * 10 + (c.toNat - 48)) 0

/-- Whether a char list is one or more decimal digits
(`re.match(r'^\d+$', s)` on the ASCII inputs in scope). -/
def isDigitsL (l : List Char) : Bool :=
  !l.isEmpty && l.all Char.isDigit

/-- Python `s.split('-')` over a char list. -/
def splitDash : List Char → List Char → List (List Char)
  | [], acc => [acc.reverse]
  | c :: rest, acc =>
    if c = '-' then acc.reverse :: splitDash rest []
    else splitDash rest (c :: acc)

/-- Whether `re.match(r'^(\d+)-(\d+)$', s)` succeeds, returning the two parsed
integers.  Since `\d+` cannot match `-`, the string matches exactly when it
splits at a single `-` into two nonempty digit groups. -/
def matchIntPair (s : String) : Option (Nat × Nat) :=
  match splitDash s.data [] with
  | [x, y] =>
    if isDigitsL x && isDigitsL y then some (natOfDigits x, natOfDigits y) else none
  | _ => none

/-! ### `parse_range_selection` (`src/utils/helpers.py`) -/

/-- Errors raised by `parse_range_selection` in `src/utils/helpers.py`:
`IndexError("Chapter index out of range")`, `IndexError("Invalid chapter range")`,
`ValueError("Invalid range syntax. ...")`. -/
inductive RangeError
  | indexOutOfRange
  | invalidRange
  | invalidSyntax
deriving DecidableEq, Repr

/-- `parse_range_selection(items, selection)` from `src/utils/helpers.py`.
Mirrors the Python control flow: the `None` / `"all"` check happens BEFORE
`selection.strip()`; a single number is 1-based with an explicit bounds check;
a range `a-b` becomes the Python slice `items[start:end]` with
`start = a-1` clamped up to `0` and `end = b` clamped down to `len(items)`,
rejected when `start >= end`.  Arithmetic on `start`/`end` is over `Int`,
as in Python; the final slice `items[start:end]` (with `0 ≤ start < end ≤ total`
guaranteed by the checks) is `(items.drop start).take (end - start)`,
and `[items[idx]]` (with `0 ≤ idx < total` checked) is `(items.drop idx).take 1`. -/
def parse_range_selection {α : Type} (items : List α) (selection : Option String) :
    Except RangeError (List α) :=
  let total := items.length
  match selection with
  | none => Except.ok items
  | some sel =>
    if pyLower sel = "all" then Except.ok items
    else
      let sel := pyStrip sel
      if isDigitsL sel.data then
        let idx : Int := (natOfDigits sel.data : Int) - 1
        if idx < 0 ∨ (total : Int) ≤ idx then Except.error RangeError.indexOutOfRange
        else Except.ok ((items.drop idx.toNat).take 1)
      else
        match matchIntPair sel with
        | some (a, b) =>
          let start : Int := (a : Int) - 1
          let stop : Int := (b : Int)
          let start := if start < 0 then 0 else start
          let stop := if (total : Int) < stop then (total : Int) else stop
          if stop ≤ start then Except.error RangeError.invalidRange
          else Except.ok ((items.drop start.toNat).take (stop - start).toNat)
        | none => Except.error RangeError.invalidSyntax

end Zetro

namespace Zetro

instance {ε α : Type} [DecidableEq ε] [DecidableEq α] : DecidableEq (Except ε α) := by
  intro x y
  cases x <;> cases y
  case error.error a b =>
    by_cases h : a = b
    · exact isTrue (by rw [h])
    · exact isFalse (by intro hc; cases hc; exact h rfl)
  case ok.ok a b =>
    by_cases h : a = b
    · exact isTrue (by rw [h])
    · exact isFalse (by intro hc; cases hc; exact h rfl)
  case error.ok a b => exact isFalse (by intro h; cases h)
  case ok.error a b => exact isFalse (by intro h; cases h)

/-- C10: passing `selection = None` returns the full items list
(`items[:]`, a copy — in this embedding lists are values, so the copy is
the list itself), treated like `"all"` rather than rejected. -/
theorem parse_range_selection_none {α : Type} (items : List α) :
    parse_range_selection items none = Except.ok items := rfl

/-- Witness for `parse_range_selection_none` at a concrete list. -/
theorem parse_range_selection_none_witness :
    parse_range_selection ["a", "b"] none = Except.ok ["a", "b"] :=
  parse_range_selection_none ["a", "b"]

/-- C1 (counterexample): `select(["a","b","c"], "3-3")` — an interval whose two
bounds are equal — is NOT rejected with `InvalidRange`; it returns the
one-element slice `["c"]`, because the failure test `start >= end` compares
`a-1` with `b`, so it fires only when `a > b` after clamping. -/
theorem range_pair_equal_bounds_not_rejected :
    parse_range_selection ["a", "b", "c"] (some "3-3") = Except.ok ["c"] ∧
      parse_range_selection ["a", "b", "c"] (some "3-3") ≠
        Except.error RangeError.invalidRange := by
  exact ⟨by decide, by decide⟩

/-- C1 (amended): on an interval expression parsed as the pair `(a, b)` (a string
that is not `"all"` case-insensitively and, after stripping, is not a single digit
group but matches `^(\d+)-(\d+)$`), the call fails with `InvalidRange` iff after
clamping (`a` up to 1, `b` down to `len(items)`) we have `a > b` (strictly);
otherwise — including `a = b` — it returns the contiguous slice covering 1-based
positions `max a 1 .. min b (len items)` inclusive. -/
theorem parse_range_selection_pair_spec {α : Type} (items : List α) (s : String)
    (a b : Nat) (hall : ¬ pyLower s = "all") (hdig : isDigitsL (pyStrip s).data = false)
    (hm : matchIntPair (pyStrip s) = some (a, b)) :
    (parse_range_selection items (some s) = Except.error RangeError.invalidRange ↔
        min b items.length < max a 1) ∧
      (max a 1 ≤ min b items.length →
        parse_range_selection items (some s) =
          Except.ok ((items.drop (max a 1 - 1)).take
            (min b items.length - (max a 1 - 1)))) := by
  have hdig2 : ¬ isDigitsL (pyStrip s).data = true := by simp [hdig]
  unfold parse_range_selection
  simp only [if_neg hall, if_neg hdig2, hm]
  set total := items.length with htot
  have hstart : (if ((a : Int) - 1) < 0 then (0 : Int) else (a : Int) - 1) =
      ((max a 1 - 1 : Nat) : Int) := by
    by_cases h : a = 0
    · subst h; norm_num
    · rw [if_neg (by omega)]; omega
  have hstop : (if ((total : Int)) < (b : Int) then (total : Int) else (b : Int)) =
      ((min b total : Nat) : Int) := by
    by_cases h : (total : Int) < (b : Int)
    · rw [if_pos h]; omega
    · rw [if_neg h]; omega
  simp only [hstart, hstop]
  constructor
  · by_cases h : ((min b total : Nat) : Int) ≤ ((max a 1 - 1 : Nat) : Int)
    · rw [if_pos h]
      constructor
      · intro _; omega
      · intro _; rfl
    · rw [if_neg h]
      constructor
      · intro hc; exact Except.noConfusion hc
      · intro hlt; exact absurd hlt (by omega)
  · intro hle
    rw [if_neg (by omega)]
    have h1 : ((max a 1 - 1 : Nat) : Int).toNat = max a 1 - 1 := by omega
    have h2 : (((min b total : Nat) : Int) - ((max a 1 - 1 : Nat) : Int)).toNat =
        min b total - (max a 1 - 1) := by omega
    rw [h1, h2]

/-- Witness for `parse_range_selection_pair_spec`: `select(["a","b","c"], "2-9")`
returns the slice covering positions `2..3` (after clamping `9` down to `3`). -/
theorem parse_range_selection_pair_spec_witness :
    parse_range_selection ["a", "b", "c"] (some "2-9") =
      Except.ok (((["a", "b", "c"] : List String).drop (max 2 1 - 1)).take
        (min 9 (["a", "b", "c"] : List String).length - (max 2 1 - 1))) :=
  (parse_range_selection_pair_spec ["a", "b", "c"] "2-9" 2 9
    (by decide) (by decide) (by decide)).2 (by decide)

/-- C8 (counterexample): `" all "` — equal to `"all"` after trimming and
case-folding — is NOT accepted: the `"all"` comparison happens before
`selection.strip()`, so the call raises the invalid-syntax error instead of
returning the full list. -/
theorem all_with_surrounding_whitespace_rejected :
    parse_range_selection ["a"] (some " all ") =
      Except.error RangeError.invalidSyntax := by decide

/-- C8 (amended): every expression equal to `"all"` after case-insensitive
comparison alone (no whitespace trimming is applied before this check) makes
`parse_range_selection` return the full items list, in order, without error. -/
theorem parse_range_selection_all {α : Type} (items : List α) (s : String)
    (h : pyLower s = "all") :
    parse_range_selection items (some s) = Except.ok items := by
  simp [parse_range_selection, h]

/-- Witness for `parse_range_selection_all`: `select(["x","y"], "ALL")` returns
the whole list. -/
theorem parse_range_selection_all_witness :
    parse_range_selection ["x", "y"] (some "ALL") = Except.ok ["x", "y"] :=
  parse_range_selection_all ["x", "y"] "ALL" (by decide)

/-! ### `fetch_soup` (`src/utils/helpers.py`)

`fetch_soup(url, retries, backoff)` runs `for attempt in range(1, retries+1)`:
each attempt either returns the parsed document or, on any exception, records
the exception in `last_exc`, sleeps `backoff` seconds, doubles `backoff`, and
continues; after the loop it executes `raise last_exc`.  The embedding
abstracts the network as an oracle `attempts : Nat → Except ε β` giving the
outcome of each numbered attempt, and returns together with the result the
list of sleep durations in the order they were performed.  The raised value is
`Option ε` because `last_exc` starts as Python `None` (raised as-is when
`retries = 0`). -/

/-- The retry loop of `fetch_soup`, from the given attempt number, with
`remaining` attempts left, the current backoff, the last exception seen and the
sleeps performed so far. -/
def fetch_soup_go {ε β : Type} (attempts : Nat → Except ε β) :
    Nat → Nat → ℚ → Option ε → List ℚ → Except (Option ε) β × List ℚ
  | _, 0, _, last, sleeps => (Except.error last, sleeps)
  | attempt, r + 1, backoff, _, sleeps =>
    match attempts attempt with
    | Except.ok a => (Except.ok a, sleeps)
    | Except.error e =>
      fetch_soup_go attempts (attempt + 1) r (backoff * 2) (some e) (sleeps ++ [backoff])

/-- `fetch_soup(url, retries, backoff)`: result together with the performed
sleep durations, in order. -/
def fetch_soup {ε β : Type} (attempts : Nat → Except ε β) (retries : Nat)
    (backoff : ℚ) : Except (Option ε) β × List ℚ :=
  fetch_soup_go attempts 1 retries backoff none []

/-- C6 (counterexample): with `retries=3` and every attempt failing, `fetch_soup`
re-raises the last underlying exception directly (no wrapper type exists in the
code) and performs THREE sleeps — `1s, 2s, 4s` — the `4s` one occurring after
the final failed attempt, before the error propagates; the claim that no
backoff sleep occurs after the final failed attempt is false. -/
theorem fetch_soup_sleeps_after_final_failure :
    fetch_soup (fun _ => (Except.error 0 : Except Nat Unit)) 3 1 =
      (Except.error (some 0), [1, 2, 4]) ∧
      (fetch_soup (fun _ => (Except.error 0 : Except Nat Unit)) 3 1).2.length ≠ 2 := by
  have h : fetch_soup (fun _ => (Except.error 0 : Except Nat Unit)) 3 1 =
      (Except.error (some 0), [1, 2, 4]) := by
    simp only [fetch_soup, fetch_soup_go]
    norm_num
  refine ⟨h, ?_⟩
  rw [h]
  simp

/-- C6 (amended): when `retries=3` and attempts 1, 2, 3 fail with `e1, e2, e3`,
`fetch_soup` propagates the last underlying cause `e3` (raised directly, not
wrapped), and the backoff sleeps performed are `1s, 2s, 4s` — one after every
failed attempt, including a final `4s` sleep after the last failure and before
the error propagates. -/
theorem fetch_soup_all_attempts_fail {ε β : Type} (attempts : Nat → Except ε β)
    (e1 e2 e3 : ε) (h1 : attempts 1 = Except.error e1)
    (h2 : attempts 2 = Except.error e2) (h3 : attempts 3 = Except.error e3) :
    fetch_soup attempts 3 1 = (Except.error (some e3), [1, 2, 4]) := by
  simp only [fetch_soup, fetch_soup_go, h1, h2, h3]
  norm_num

/-- Witness for `fetch_soup_all_attempts_fail` at a concrete all-failing oracle. -/
theorem fetch_soup_all_attempts_fail_witness :
    fetch_soup (fun n => (Except.error n : Except Nat Unit)) 3 1 =
      (Except.error (some 3), [1, 2, 4]) :=
  fetch_soup_all_attempts_fail (fun n => (Except.error n : Except Nat Unit))
    1 2 3 rfl rfl rfl

/-- C7: with `retries=3`, when attempts 1 and 2 fail and attempt 3 succeeds
with value `a`, `fetch_soup` returns `a` and the sleeps performed are exactly
`1.0s` then `2.0s` (doubling backoff, no jitter, no cap) — no further delay
after the successful attempt. -/
theorem fetch_soup_third_attempt_succeeds {ε β : Type} (attempts : Nat → Except ε β)
    (e1 e2 : ε) (a : β) (h1 : attempts 1 = Except.error e1)
    (h2 : attempts 2 = Except.error e2) (h3 : attempts 3 = Except.ok a) :
    fetch_soup attempts 3 1 = (Except.ok a, [1, 2]) := by
  simp only [fetch_soup, fetch_soup_go, h1, h2, h3]
  norm_num

/-- Witness for `fetch_soup_third_attempt_succeeds` at a concrete oracle that
fails twice then succeeds. -/
theorem fetch_soup_third_attempt_succeeds_witness :
    fetch_soup (fun n => if 3 ≤ n then (Except.ok 7 : Except Nat Nat)
      else Except.error n) 3 1 = (Except.ok 7, [1, 2]) :=
  fetch_soup_third_attempt_succeeds
    (fun n => if 3 ≤ n then (Except.ok 7 : Except Nat Nat) else Except.error n)
    1 2 7 rfl rfl rfl

/-! ### `EpubBuilder` (`src/utils/epub_builder.py`)

The builder state relevant to the claims: the per-build image dict
`self._images` (insertion-ordered, keyed by local filename) and the counter
`self._image_counter` (initialised to `1`), the cover options, and the
spine/TOC assembly in `build()`.  Chapter HTML is modelled as a list of nodes
(text runs and `<img>` tags with their `src` attribute); image and cover
downloads are oracles.  `build()` calls `_process_chapter_images` with
`base_url=None`, so `abs_url = src` there. -/

/-- Python `str(n)` for a natural number: decimal digits, most significant
first (`Nat.digits` lists least-significant first). -/
def natStr (n : Nat) : String :=
  if n = 0 then "0" else String.mk (((Nat.digits 10 n).reverse).map Nat.digitChar)

/-- The local filename `f"images/{img_id}.jpg"` with `img_id = f"img_{counter}"`. -/
def imgFilename (n : Nat) : String :=
  "images/img_" ++ natStr n ++ ".jpg"

/-- The fixed reserved filename of the cover image asset. -/
def coverFilename : String := "images/cover.jpg"

/-- A node of a chapter document: a text run, or an `<img>` tag with its `src`
attribute (the empty string models a missing attribute, as in
`(src or '')`). -/
inductive Node
  | text (s : String)
  | img (src : String)
deriving DecidableEq, Repr

/-- `src.split('?')[0]`: the part of the URL before the query string. -/
def stripQuery (s : String) : String :=
  String.mk (s.data.takeWhile (fun c => c ≠ '?'))

/-- One stored image asset: its sequential id, its local filename (the key of
the `self._images` dict, `f"images/img_{id}.jpg"`), and the downloaded bytes. -/
structure ImageAsset (β : Type) where
  id : Nat
  filename : String
  data : β
deriving DecidableEq, Repr

/-- The image-collecting state of the builder: the insertion-ordered
`self._images` dict and `self._image_counter`. -/
structure ImgState (β : Type) where
  images : List (ImageAsset β)
  counter : Nat
deriving DecidableEq, Repr

/-- `EpubBuilder._process_chapter_images` with `base_url=None`, over the node
list of one chapter.  For each `<img>` tag in document order: take
`src.split('?')[0]`; if empty, leave the tag alone; otherwise download
(`fetchImg`, an oracle returning `None` on any fetch/decode failure); on
failure leave the tag alone (the code logs and `continue`s); on success store
the bytes under the next sequential id and rewrite the tag's `src` to
`../images/img_{id}.jpg`.  Returns the rewritten nodes, the updated state, and
the list of URLs passed to the downloader, in order. -/
def process_chapter_images {β : Type} (fetchImg : String → Option β) :
    List Node → ImgState β → List Node × ImgState β × List String
  | [], st => ([], st, [])
  | Node.text s :: rest, st =>
    let r := process_chapter_images fetchImg rest st
    (Node.text s :: r.1, r.2)
  | Node.img src :: rest, st =>
    let cleaned := stripQuery src
    if cleaned = "" then
      let r := process_chapter_images fetchImg rest st
      (Node.img src :: r.1, r.2)
    else
      match fetchImg cleaned with
      | none =>
        let r := process_chapter_images fetchImg rest st
        (Node.img src :: r.1, r.2.1, cleaned :: r.2.2)
      | some bytes =>
        let fname := imgFilename st.counter
        let st1 : ImgState β :=
          ⟨st.images ++ [⟨st.counter, fname, bytes⟩], st.counter + 1⟩
        let r := process_chapter_images fetchImg rest st1
        (Node.img ("../" ++ fname) :: r.1, r.2.1, cleaned :: r.2.2)

/-- The chapter loop of `build()`: each chapter body is passed through
`_process_chapter_images`, threading the builder's image state. -/
def processChapters {β : Type} (fetchImg : String → Option β) :
    List (List Node) → ImgState β → List (List Node) × ImgState β × List String
  | [], st => ([], st, [])
  | ch :: rest, st =>
    let r := process_chapter_images fetchImg ch st
    let rs := processChapters fetchImg rest r.2.1
    (r.1 :: rs.1, rs.2.1, r.2.2 ++ rs.2.2)

/-- The chapter image assets produced by one `build()`: the counter starts at
`1` (set in `__init__`) and the chapters are processed in order. -/
def buildImageAssets {β : Type} (fetchImg : String → Option β)
    (chapters : List (List Node)) : List (ImageAsset β) :=
  (processChapters fetchImg chapters ⟨[], 1⟩).2.1.images

/-- The `EpubBuilder` options relevant to cover/spine/TOC assembly. -/
structure BuilderCfg where
  include_cover_page : Bool
  cover_first_in_spine : Bool
  cover_url : Option String
deriving DecidableEq, Repr

/-- Python truthiness of `self._cover_url` (`None` and `""` are falsy). -/
def hasCoverUrl (c : BuilderCfg) : Bool :=
  match c.cover_url with
  | none => false
  | some u => !u.isEmpty

/-- The `cover_content` local of `build()`: the cover download result when
`self._cover_url and self.include_cover_page`, else `None`.  `coverFetch` is
the oracle for `_download_and_prepare_cover()` (`None` on fetch/decode
failure). -/
def cover_content {β : Type} (c : BuilderCfg) (coverFetch : Option β) : Option β :=
  if hasCoverUrl c && c.include_cover_page then coverFetch else none

/-- The documents that can appear in the spine and TOC of a built package. -/
inductive SpineItem
  | coverpage
  | nav
  | intro
  | chapter (i : Nat)
deriving DecidableEq, Repr

/-- The spine assembled by `build()`: the cover page first IF
`self.cover_first_in_spine` and the cover page exists, then the navigation
document, the introduction, and the chapters in order. -/
def spineOrder {β : Type} (c : BuilderCfg) (coverFetch : Option β)
    (numChapters : Nat) : List SpineItem :=
  (if c.cover_first_in_spine && (cover_content c coverFetch).isSome
    then [SpineItem.coverpage] else [])
    ++ [SpineItem.nav, SpineItem.intro]
    ++ (List.range numChapters).map SpineItem.chapter

/-- The TOC assembled by `build()`: a cover link whenever the cover page
exists, then the introduction link, then the chapters in order. -/
def tocOrder {β : Type} (c : BuilderCfg) (coverFetch : Option β)
    (numChapters : Nat) : List SpineItem :=
  (if (cover_content c coverFetch).isSome then [SpineItem.coverpage] else [])
    ++ [SpineItem.intro]
    ++ (List.range numChapters).map SpineItem.chapter

/-- "spine minus the navigation document": remove the nav entries. -/
def removeNav (l : List SpineItem) : List SpineItem :=
  l.filter (fun x => decide (x ≠ SpineItem.nav))

/-- C2 (counterexample): with a valid cover URL, `includeCoverPage = true`, a
successful cover fetch, but `coverFirstInSpine = false`, the cover page exists
in the package yet is NOT in the spine at all — refuting the claim that the
spine contains the cover page iff `includeCoverPage` is true and the fetch
succeeded, with `coverFirstInSpine` only controlling its position. -/
theorem cover_not_in_spine_when_not_first :
    (cover_content ⟨true, false, some "u"⟩ (some 0)).isSome = true ∧
      (⟨true, false, some "u"⟩ : BuilderCfg).include_cover_page = true ∧
      SpineItem.coverpage ∉ spineOrder ⟨true, false, some "u"⟩ (some (0 : Nat)) 1 := by
  decide

/-- C2 (amended): the spine always contains the navigation document and the
introduction page; it contains the cover page iff `includeCoverPage` is true,
the cover URL is set (non-empty), the cover fetch/decode succeeded, AND
`coverFirstInSpine` is true — with `coverFirstInSpine = false` the cover page
is in the package but never in the spine. -/
theorem spine_membership {β : Type} (c : BuilderCfg) (f : Option β) (n : Nat) :
    SpineItem.nav ∈ spineOrder c f n ∧ SpineItem.intro ∈ spineOrder c f n ∧
      (SpineItem.coverpage ∈ spineOrder c f n ↔
        (c.include_cover_page = true ∧ hasCoverUrl c = true ∧ f.isSome = true ∧
          c.cover_first_in_spine = true)) := by
  refine ⟨?_, ?_, ?_⟩
  · simp [spineOrder]
  · simp [spineOrder]
  · cases hc : c.cover_first_in_spine <;> cases hu : hasCoverUrl c <;>
      cases hi : c.include_cover_page <;> cases f <;>
      simp [spineOrder, cover_content, hc, hu, hi]

/-- Witness for `spine_membership` at a concrete configuration (cover URL set,
cover page included and fetched, cover first in spine, two chapters). -/
theorem spine_membership_witness :
    SpineItem.nav ∈ spineOrder ⟨true, true, some "u"⟩ (some (0 : Nat)) 2 ∧
      SpineItem.intro ∈ spineOrder ⟨true, true, some "u"⟩ (some (0 : Nat)) 2 ∧
      (SpineItem.coverpage ∈ spineOrder ⟨true, true, some "u"⟩ (some (0 : Nat)) 2 ↔
        ((⟨true, true, some "u"⟩ : BuilderCfg).include_cover_page = true ∧
          hasCoverUrl ⟨true, true, some "u"⟩ = true ∧
          (some (0 : Nat)).isSome = true ∧
          (⟨true, true, some "u"⟩ : BuilderCfg).cover_first_in_spine = true)) :=
  spine_membership ⟨true, true, some "u"⟩ (some (0 : Nat)) 2

/-- C3 (counterexample): with a cover page present and
`coverFirstInSpine = false`, the TOC contains the cover link but the spine does
not contain the cover page, so the TOC is NOT the spine minus the navigation
document. -/
theorem toc_not_spine_minus_nav :
    tocOrder ⟨true, false, some "u"⟩ (some (0 : Nat)) 1 ≠
      removeNav (spineOrder ⟨true, false, some "u"⟩ (some (0 : Nat)) 1) := by
  decide

/-- C3 (amended): the TOC equals the spine minus the navigation document
whenever `coverFirstInSpine` is true or no cover page exists; in the remaining
case (cover page present, `coverFirstInSpine = false`) the TOC is the cover
link followed by the spine minus the navigation document. -/
theorem toc_mirrors_spine {β : Type} (c : BuilderCfg) (f : Option β) (n : Nat) :
    ((c.cover_first_in_spine = true ∨ (cover_content c f).isSome = false) →
        tocOrder c f n = removeNav (spineOrder c f n)) ∧
      (c.cover_first_in_spine = false → (cover_content c f).isSome = true →
        tocOrder c f n = SpineItem.coverpage :: removeNav (spineOrder c f n)) := by
  have hchap : ∀ m : Nat,
      ((List.range m).map SpineItem.chapter).filter
          (fun x => !decide (x = SpineItem.nav)) =
        (List.range m).map SpineItem.chapter := by
    intro m
    simp [List.filter_map, Function.comp_def]
  cases hc : c.cover_first_in_spine <;> cases hs : (cover_content c f).isSome <;>
    simp [tocOrder, spineOrder, removeNav, hc, hs, List.filter_append] <;>
    exact (hchap n).symm

/-- Witness for `toc_mirrors_spine`: a build with no cover URL has
`tocOrder = removeNav spineOrder`; a build with a present cover and
`coverFirstInSpine = false` has `tocOrder = cover :: removeNav spineOrder`. -/
theorem toc_mirrors_spine_witness :
    tocOrder ⟨false, false, none⟩ (none : Option Nat) 0 =
        removeNav (spineOrder ⟨false, false, none⟩ (none : Option Nat) 0) ∧
      tocOrder ⟨true, false, some "u"⟩ (some (0 : Nat)) 1 =
        SpineItem.coverpage ::
          removeNav (spineOrder ⟨true, false, some "u"⟩ (some (0 : Nat)) 1) :=
  ⟨(toc_mirrors_spine ⟨false, false, none⟩ (none : Option Nat) 0).1
      (Or.inr (by decide)),
    (toc_mirrors_spine ⟨true, false, some "u"⟩ (some (0 : Nat)) 1).2
      (by decide) (by decide)⟩

/-- Number of `<img>` elements in a chapter document. -/
def imgCount (l : List Node) : Nat :=
  l.countP (fun n => match n with | Node.img _ => true | _ => false)

/-- C4 (counterexample): a chapter whose sole image reference cannot be fetched
keeps its text intact, but the `<img>` element is NOT dropped: it stays in the
produced content with its original `src` (the code logs and `continue`s), so
the produced document's image-element count is 1, not 0. -/
theorem failed_image_not_dropped :
    (process_chapter_images (fun _ => (none : Option Nat))
        [Node.text "hello", Node.img "http://a/b.jpg"] ⟨[], 1⟩).1 =
      [Node.text "hello", Node.img "http://a/b.jpg"] ∧
      imgCount (process_chapter_images (fun _ => (none : Option Nat))
        [Node.text "hello", Node.img "http://a/b.jpg"] ⟨[], 1⟩).1 = 1 := by
  decide

/-- C4 (amended): when every image fetch fails, processing leaves the chapter
document completely unchanged — the surrounding text is preserved and each
failed `<img>` element is left in place with its original `src` (not removed,
not rewritten) — and no image asset is stored (state, and hence asset count,
unchanged). -/
theorem process_chapter_images_all_fail {β : Type} (fetchImg : String → Option β)
    (nodes : List Node) (st : ImgState β) (h : ∀ u, fetchImg u = none) :
    (process_chapter_images fetchImg nodes st).1 = nodes ∧
      (process_chapter_images fetchImg nodes st).2.1 = st := by
  induction nodes generalizing st with
  | nil => simp [process_chapter_images]
  | cons hd tl ih =>
    cases hd with
    | text s => simpa [process_chapter_images] using ih st
    | img src =>
      by_cases hc : stripQuery src = ""
      · simpa [process_chapter_images, hc] using ih st
      · simpa [process_chapter_images, hc, h (stripQuery src)] using ih st

/-- Witness for `process_chapter_images_all_fail` at an always-failing fetch. -/
theorem process_chapter_images_all_fail_witness :
    (process_chapter_images (fun _ => (none : Option Nat))
        [Node.text "t", Node.img "http://a/b.jpg"] ⟨[], 1⟩).1 =
      [Node.text "t", Node.img "http://a/b.jpg"] ∧
      (process_chapter_images (fun _ => (none : Option Nat))
        [Node.text "t", Node.img "http://a/b.jpg"] ⟨[], 1⟩).2.1 = ⟨[], 1⟩ :=
  process_chapter_images_all_fail (fun _ => none)
    [Node.text "t", Node.img "http://a/b.jpg"] ⟨[], 1⟩ (fun _ => rfl)

/-- C5 (counterexample): for the image reference
`<img src="http://x/a.jpg?v=2">`, the URL handed to the downloader is
`http://x/a.jpg` — the query string IS stripped before the URL is used
(`src.split('?')[0]`), refuting the claim that it is not. -/
theorem query_string_is_stripped :
    (process_chapter_images (fun _ => (none : Option Nat))
        [Node.img "http://x/a.jpg?v=2"] ⟨[], 1⟩).2.2 = ["http://x/a.jpg"] ∧
      "http://x/a.jpg" ≠ "http://x/a.jpg?v=2" := by
  decide

/-- The URLs the image pipeline requests for a chapter, per the spec's reading:
one request per `<img>` occurrence in document order, skipping only those whose
`src.split('?')[0]` is empty. -/
def requestedUrls (nodes : List Node) : List String :=
  nodes.filterMap (fun n =>
    match n with
    | Node.img s => if stripQuery s = "" then none else some (stripQuery s)
    | Node.text _ => none)

/-- C5 (amended): the pipeline requests exactly one fetch per `<img>` occurrence
with nonempty `src.split('?')[0]`, in document order, using the
query-string-STRIPPED URL; the request list does not depend on the fetch
outcomes or on previously stored assets, so a recurring URL is fetched
independently and fresh each time (no caching or deduplication). -/
theorem process_chapter_images_requests {β : Type} (fetchImg : String → Option β)
    (nodes : List Node) (st : ImgState β) :
    (process_chapter_images fetchImg nodes st).2.2 = requestedUrls nodes := by
  induction nodes generalizing st with
  | nil => simp [process_chapter_images, requestedUrls]
  | cons hd tl ih =>
    cases hd with
    | text s => simpa [process_chapter_images, requestedUrls] using ih st
    | img src =>
      by_cases hc : stripQuery src = ""
      · simpa [process_chapter_images, requestedUrls, hc] using ih st
      · cases hf : fetchImg (stripQuery src) with
        | none => simpa [process_chapter_images, requestedUrls, hc, hf] using ih st
        | some b =>
          simpa [process_chapter_images, requestedUrls, hc, hf] using
            ih ⟨st.images ++ [⟨st.counter, imgFilename st.counter, b⟩], st.counter + 1⟩

/-- Witness for `process_chapter_images_requests`: a chapter with the same
URL twice (one with a query string) requests it twice, stripped. -/
theorem process_chapter_images_requests_witness :
    (process_chapter_images (fun _ => (none : Option Nat))
        [Node.img "http://x/a.jpg?v=2", Node.text "t", Node.img "http://x/a.jpg"]
        ⟨[], 1⟩).2.2 =
      requestedUrls
        [Node.img "http://x/a.jpg?v=2", Node.text "t", Node.img "http://x/a.jpg"] :=
  process_chapter_images_requests (fun _ => none)
    [Node.img "http://x/a.jpg?v=2", Node.text "t", Node.img "http://x/a.jpg"] ⟨[], 1⟩

/-! ### Uniqueness of asset ids and filenames (C9) -/

/-- Decimal rendering is injective on positive numbers. -/
lemma natStr_injOn {m n : Nat} (hm : m ≠ 0) (hn : n ≠ 0) (h : natStr m = natStr n) :
    m = n := by
  unfold natStr at h
  rw [if_neg hm, if_neg hn] at h
  have hd : ((Nat.digits 10 m).reverse).map Nat.digitChar =
      ((Nat.digits 10 n).reverse).map Nat.digitChar := congrArg String.data h
  have hinv : ∀ l : List Nat, (∀ d ∈ l, d < 10) →
      (l.map Nat.digitChar).map (fun c => c.toNat - 48) = l := by
    intro l hl
    rw [List.map_map]
    have heq : ∀ d ∈ l, ((fun c : Char => c.toNat - 48) ∘ Nat.digitChar) d = id d := by
      intro d hdl
      have hlt : d < 10 := hl d hdl
      interval_cases d <;> rfl
    rw [List.map_congr_left heq, List.map_id]
  have hbm : ∀ d ∈ (Nat.digits 10 m).reverse, d < 10 := by
    intro d hdm
    rw [List.mem_reverse] at hdm
    exact Nat.digits_lt_base (by norm_num) hdm
  have hbn : ∀ d ∈ (Nat.digits 10 n).reverse, d < 10 := by
    intro d hdn
    rw [List.mem_reverse] at hdn
    exact Nat.digits_lt_base (by norm_num) hdn
  have h1 := congrArg (List.map (fun c : Char => c.toNat - 48)) hd
  rw [hinv _ hbm, hinv _ hbn] at h1
  have h2 : Nat.digits 10 m = Nat.digits 10 n := by
    simpa using congrArg List.reverse h1
  calc m = Nat.ofDigits 10 (Nat.digits 10 m) := (Nat.ofDigits_digits 10 m).symm
    _ = Nat.ofDigits 10 (Nat.digits 10 n) := by rw [h2]
    _ = n := Nat.ofDigits_digits 10 n

/-- The generated image filenames are injective on positive ids. -/
lemma imgFilename_injOn {m n : Nat} (hm : m ≠ 0) (hn : n ≠ 0)
    (h : imgFilename m = imgFilename n) : m = n := by
  unfold imgFilename at h
  have hd := congrArg String.data h
  simp only [String.data_append] at hd
  have h1 : (natStr m).data ++ ".jpg".data = (natStr n).data ++ ".jpg".data := by
    rw [List.append_assoc, List.append_assoc] at hd
    exact List.append_cancel_left hd
  have h2 : (natStr m).data = (natStr n).data := List.append_cancel_right h1
  exact natStr_injOn hm hn (String.ext h2)

/-- The reserved cover filename differs from every generated image filename. -/
lemma coverFilename_ne_imgFilename (n : Nat) : coverFilename ≠ imgFilename n := by
  intro h
  have hd := congrArg String.data h
  unfold coverFilename imgFilename at hd
  simp only [String.data_append] at hd
  rw [List.append_assoc] at hd
  have h7 := congrArg (fun l => l[7]?) hd
  simp only at h7
  rw [List.getElem?_append, if_pos (by decide : (7 : Nat) < "images/img_".data.length)]
    at h7
  have hc : ("images/cover.jpg".data)[7]? = some 'c' := rfl
  have hi : ("images/img_".data)[7]? = some 'i' := rfl
  rw [hc, hi] at h7
  simp at h7

/-- `_process_chapter_images` appends, to the image dict, a block of new assets
whose ids are exactly the consecutive counter values it consumed, in discovery
order, each stored under its generated filename. -/
lemma process_chapter_images_assets {β : Type} (fetchImg : String → Option β)
    (nodes : List Node) (st : ImgState β) :
    ∃ new : List (ImageAsset β),
      (process_chapter_images fetchImg nodes st).2.1.images = st.images ++ new ∧
        new.map ImageAsset.id = List.range' st.counter new.length ∧
        (process_chapter_images fetchImg nodes st).2.1.counter =
          st.counter + new.length ∧
        ∀ a ∈ new, a.filename = imgFilename a.id := by
  induction nodes generalizing st with
  | nil => exact ⟨[], by simp [process_chapter_images]⟩
  | cons hd tl ih =>
    cases hd with
    | text s => simpa [process_chapter_images] using ih st
    | img src =>
      by_cases hc : stripQuery src = ""
      · simpa [process_chapter_images, hc] using ih st
      · cases hf : fetchImg (stripQuery src) with
        | none => simpa [process_chapter_images, hc, hf] using ih st
        | some b =>
          obtain ⟨new1, himg, hids, hcnt, hfn⟩ :=
            ih ⟨st.images ++ [⟨st.counter, imgFilename st.counter, b⟩], st.counter + 1⟩
          refine ⟨⟨st.counter, imgFilename st.counter, b⟩ :: new1, ?_, ?_, ?_, ?_⟩
          · simpa [process_chapter_images, hc, hf] using himg
          · simpa [List.range'_succ] using hids
          · simp only [process_chapter_images, hc, hf] at hcnt ⊢
            simp at hcnt ⊢
            omega
          · intro a ha
            rcases List.mem_cons.mp ha with h | h
            · subst h; rfl
            · exact hfn a h

/-- The chapter loop threads the image state, so over a whole build the new
assets again have consecutive ids from the starting counter, in discovery
order. -/
lemma processChapters_assets {β : Type} (fetchImg : String → Option β)
    (chapters : List (List Node)) (st : ImgState β) :
    ∃ new : List (ImageAsset β),
      (processChapters fetchImg chapters st).2.1.images = st.images ++ new ∧
        new.map ImageAsset.id = List.range' st.counter new.length ∧
        (processChapters fetchImg chapters st).2.1.counter =
          st.counter + new.length ∧
        ∀ a ∈ new, a.filename = imgFilename a.id := by
  induction chapters generalizing st with
  | nil => exact ⟨[], by simp [processChapters]⟩
  | cons ch rest ih =>
    obtain ⟨new1, himg1, hids1, hcnt1, hfn1⟩ :=
      process_chapter_images_assets fetchImg ch st
    obtain ⟨new2, himg2, hids2, hcnt2, hfn2⟩ :=
      ih (process_chapter_images fetchImg ch st).2.1
    refine ⟨new1 ++ new2, ?_, ?_, ?_, ?_⟩
    · simp only [processChapters]
      rw [himg2, himg1, List.append_assoc]
    · rw [List.map_append, hids1, hids2, hcnt1]
      have hr := List.range'_append st.counter new1.length new2.length 1
      simp only [Nat.one_mul, List.length_append] at hr ⊢
      rw [Nat.add_comm new2.length new1.length] at hr
      exact hr
    · simp only [processChapters]
      rw [hcnt2, hcnt1]
      simp [List.length_append]
      omega
    · intro a ha
      rcases List.mem_append.mp ha with h | h
      · exact hfn1 a h
      · exact hfn2 a h

/-- The local filenames of all image assets of one build: the chapter image
files in storage order, then the cover asset's reserved name when the cover
page was produced. -/
def buildAssetFilenames {β : Type} (c : BuilderCfg) (coverFetch : Option β)
    (fetchImg : String → Option β) (chapters : List (List Node)) : List String :=
  (buildImageAssets fetchImg chapters).map ImageAsset.filename ++
    (if (cover_content c coverFetch).isSome then [coverFilename] else [])

/-- C9: within one build, the chapter image asset ids are exactly
`1, 2, ..., k` in first-discovery order (hence unique); every chapter asset is
stored under the filename generated from its id; the cover image uses the
fixed reserved name `images/cover.jpg` outside the sequential id space; and no
two assets of the build share a local filename. -/
theorem build_asset_uniqueness {β : Type} (fetchImg : String → Option β)
    (chapters : List (List Node)) (c : BuilderCfg) (coverFetch : Option β) :
    (buildImageAssets fetchImg chapters).map ImageAsset.id =
        List.range' 1 (buildImageAssets fetchImg chapters).length ∧
      ((buildImageAssets fetchImg chapters).map ImageAsset.id).Nodup ∧
      (∀ a ∈ buildImageAssets fetchImg chapters, a.filename = imgFilename a.id) ∧
      coverFilename = "images/cover.jpg" ∧
      (buildAssetFilenames c coverFetch fetchImg chapters).Nodup := by
  obtain ⟨new, himg, hids, hcnt, hfn⟩ :=
    processChapters_assets fetchImg chapters ⟨[], 1⟩
  have hassets : buildImageAssets fetchImg chapters = new := by
    simpa [buildImageAssets] using himg
  have hids1 : new.map ImageAsset.id = List.range' 1 new.length := hids
  rw [hassets]
  have hidnodup : (new.map ImageAsset.id).Nodup := by
    rw [hids1]
    exact List.nodup_range' _ _
  refine ⟨hids1, hidnodup, hfn, rfl, ?_⟩
  have hmapfn : new.map ImageAsset.filename =
      (new.map ImageAsset.id).map imgFilename := by
    rw [List.map_map]
    exact List.map_congr_left (fun a ha => hfn a ha)
  have hfnnodup : (new.map ImageAsset.filename).Nodup := by
    rw [hmapfn, hids]
    refine (List.nodup_range' _ _).map_on ?_
    intro x hx y hy hxy
    have hx1 : 1 ≤ x := (List.mem_range'_1.mp hx).1
    have hy1 : 1 ≤ y := (List.mem_range'_1.mp hy).1
    exact imgFilename_injOn (by omega) (by omega) hxy
  have hcovnotmem : coverFilename ∉ new.map ImageAsset.filename := by
    rw [hmapfn, hids]
    intro hmem
    obtain ⟨i, _, hieq⟩ := List.mem_map.mp hmem
    exact coverFilename_ne_imgFilename i hieq.symm
  unfold buildAssetFilenames
  rw [hassets]
  cases hcc : (cover_content c coverFetch).isSome with
  | false => simpa using hfnnodup
  | true =>
    simp only [if_pos rfl]
    refine hfnnodup.append (List.nodup_singleton _) ?_
    intro x hx hxc
    simp only [if_true, List.mem_singleton] at hxc
    subst hxc
    exact hcovnotmem hx

/-- Witness for `build_asset_uniqueness`: a build with two one-image chapters,
an always-succeeding image fetch and a produced cover page. -/
theorem build_asset_uniqueness_witness :
    (buildImageAssets (fun _ => some (0 : Nat)) [[Node.img "u1"], [Node.img "u2"]]).map
          ImageAsset.id =
        List.range' 1
          (buildImageAssets (fun _ => some (0 : Nat))
            [[Node.img "u1"], [Node.img "u2"]]).length ∧
      ((buildImageAssets (fun _ => some (0 : Nat))
          [[Node.img "u1"], [Node.img "u2"]]).map ImageAsset.id).Nodup ∧
      (∀ a ∈ buildImageAssets (fun _ => some (0 : Nat)) [[Node.img "u1"], [Node.img "u2"]],
        a.filename = imgFilename a.id) ∧
      coverFilename = "images/cover.jpg" ∧
      (buildAssetFilenames ⟨true, true, some "u"⟩ (some (0 : Nat))
        (fun _ => some (0 : Nat)) [[Node.img "u1"], [Node.img "u2"]]).Nodup :=
  build_asset_uniqueness (fun _ => some (0 : Nat)) [[Node.img "u1"], [Node.img "u2"]]
    ⟨true, true, some "u"⟩ (some (0 : Nat))

end Zetro
